import Mathlib

/-!
Verification of the snmp-printer-utility Go program (src/main.go) against its
natural-language specification.  The Go code is shallowly embedded: IPv4
addresses are 4-octet lists (also viewed as 32-bit naturals), the scan loop of
`scanNetwork` is a fuel-indexed function recording both the addresses sent to
the work queue and whether the loop exited, the worker pool is modelled by an
arbitrary dispatch of queue items to workers, and `pollPrinter`'s rendering is
modelled as the list of emitted output chunks.  The float64 percentage
computation is modelled exactly with rational arithmetic and round-to-nearest-
even.
-/

namespace SnmpPrinter

/-! ### IPv4 addresses and `incIP` (src/main.go lines 40-55)

Go's `net.IP` is a byte slice; `incIP` first calls `To4()` (nil unless the
address is IPv4) and then increments the 4-byte copy from the last byte
upwards, zeroing each 255 byte; if every byte is 255 the loop zeroes all of
them and returns the all-zero address (not nil). -/

/-- Body of the `for i := 3; i >= 0; i--` loop of `incIP`: increment a 4-octet
address with carry, wrapping 255.255.255.255 to 0.0.0.0. -/
def incBytes : List Nat → List Nat
  | [a, b, c, d] =>
    if d < 255 then [a, b, c, d + 1]
    else if c < 255 then [a, b, c + 1, 0]
    else if b < 255 then [a, b + 1, 0, 0]
    else if a < 255 then [a + 1, 0, 0, 0]
    else [0, 0, 0, 0]
  | l => l

/-- Model of `incIP`: `To4()` yields nil (here `none`) unless the slice has
exactly 4 octets; otherwise the incremented copy is returned. -/
def incIP (ip : List Nat) : Option (List Nat) :=
  if ip.length = 4 then some (incBytes ip) else none

/-- 32-bit numeric value of a 4-octet address (big-endian, as in Go's
byte-slice representation). -/
def ipToNat : List Nat → Nat
  | [a, b, c, d] => ((a * 256 + b) * 256 + c) * 256 + d
  | _ => 0

/-- Octets of a 32-bit address value. -/
def natToIP (n : Nat) : List Nat :=
  [n / 2 ^ 24 % 256, n / 2 ^ 16 % 256, n / 2 ^ 8 % 256, n % 256]

/-- Validity of a 4-octet address: exactly four bytes, each below 256 (Go
bytes are uint8, so this always holds for real `net.IP` values). -/
def validIP (ip : List Nat) : Prop :=
  ip.length = 4 ∧ ∀ x ∈ ip, x < 256

/-! ### The enumeration loop of `scanNetwork` (src/main.go lines 106-143)

`net.ParseCIDR` returns the masked network address and the mask; the loop is
`ip := ipnet.IP; for ipnet.Contains(ip) { ipChan <- ip; ip = incIP(ip); if ip
== nil { break } }`.  Addresses are modelled by their 32-bit values; by
`incBytes_toNat` the step `ip = incIP(ip)` is `(ip + 1) % 2^32` and the nil
branch is unreachable for IPv4 inputs.  `ipnet.Contains` byte-ands the address
with the mask and compares with the network address, i.e. for 4-byte values
`a &&& maskOf p == net`. -/

/-- 32-bit value of the `net.CIDRMask p 32` mask: the high `p` bits. -/
def maskOf (p : Nat) : Nat := 2 ^ 32 - 2 ^ (32 - p)

/-- Model of `ipnet.Contains ip`: mask the address and compare with the
network address. -/
def containsAddr (net p a : Nat) : Bool := (a &&& maskOf p) == net

/-- Fuel-indexed run of the enumeration loop started at address `a`: the first
component lists the addresses sent to `ipChan` within `fuel` iterations, the
second is `true` iff the loop exited (found `Contains` false) within that
fuel.  A run that returns `false` for every fuel is a non-terminating loop. -/
def scanLoopFuel (net p : Nat) : Nat → Nat → List Nat × Bool
  | 0, _ => ([], false)
  | fuel + 1, a =>
    if containsAddr net p a then
      let r := scanLoopFuel net p fuel ((a + 1) % 2 ^ 32)
      (a :: r.1, r.2)
    else ([], true)

/-- Modelled from the spec: the enumerator's required output for the block
`q·2^(32-p) / p` — every address of the block, network through broadcast, in
ascending numeric order.  This is the spec-side description the loop's actual
output is compared against. -/
def specBlockAddrs (q p : Nat) : List Nat :=
  (List.range (2 ^ (32 - p))).map (fun k => q * 2 ^ (32 - p) + k)

/-! ### String helpers

Kernel-evaluable models of the string primitives the Go code uses:
`strings.Split` on a single-character separator, and `%d` decimal formatting
of integers. -/

/-- `strings.Split` on one separator character (empty segments preserved;
`[[]]` for the empty string), over the character list of a string. -/
def splitChar (sep : Char) : List Char → List (List Char)
  | [] => [[]]
  | c :: rest =>
    let r := splitChar sep rest
    if c = sep then [] :: r
    else
      match r with
      | [] => [[c]]
      | h :: t => (c :: h) :: t

/-- Decimal digit character. -/
def digitChar : Nat → Char
  | 0 => '0'
  | 1 => '1'
  | 2 => '2'
  | 3 => '3'
  | 4 => '4'
  | 5 => '5'
  | 6 => '6'
  | 7 => '7'
  | 8 => '8'
  | _ => '9'

/-- Decimal digits of a natural number (fuel-bounded; 30 digits cover every
value in range). -/
def natDigits : Nat → Nat → List Char
  | 0, _ => []
  | f + 1, n =>
    if n < 10 then [digitChar n]
    else natDigits f (n / 10) ++ [digitChar (n % 10)]

/-- Decimal rendering of a natural number (Go's `%d`). -/
def natToString (n : Nat) : String := ⟨natDigits 30 n⟩

/-- Decimal rendering of an integer (Go's `%d`). -/
def intToString : Int → String
  | .ofNat n => natToString n
  | .negSucc n => "-" ++ natToString (n + 1)

/-! ### `net.ParseCIDR` (external collaborator used at src/main.go line 107)

Modelled for IPv4 from the documented behaviour of Go's `net.ParseCIDR`:
dotted-quad address, `/`, decimal prefix length 0..32; each octet is 1-3
decimal digits, at most 255, with no leading zero (Go rejects leading zeros
in dotted-decimal since 1.17); the returned `IPNet.IP` is the address masked
with the prefix mask.  On any malformed input it fails (`none`), which the
program turns into `log.Fatalf`. -/

/-- Parse one dotted-quad octet. -/
def parseByte (cs : List Char) : Option Nat :=
  if cs.length = 0 ∨ 3 < cs.length then none
  else if ¬ cs.all Char.isDigit then none
  else if 1 < cs.length ∧ cs.headD '0' = '0' then none
  else
    let n := cs.foldl (fun a c => a * 10 + (c.toNat - 48)) 0
    if n ≤ 255 then some n else none

/-- Parse the prefix length after the slash (decimal, at most 32). -/
def parsePrefixLen (cs : List Char) : Option Nat :=
  if cs.length = 0 ∨ 3 < cs.length then none
  else if ¬ cs.all Char.isDigit then none
  else
    let n := cs.foldl (fun a c => a * 10 + (c.toNat - 48)) 0
    if n ≤ 32 then some n else none

/-- Model of `net.ParseCIDR` for IPv4: returns the masked network address and
the prefix length. -/
def parseCIDR (s : String) : Option (Nat × Nat) :=
  match splitChar '/' s.data with
  | [addr, pfxStr] =>
    match splitChar '.' addr with
    | [s1, s2, s3, s4] =>
      match parseByte s1, parseByte s2, parseByte s3, parseByte s4,
          parsePrefixLen pfxStr with
      | some a, some b, some c, some d, some p =>
        some ((((a * 256 + b) * 256 + c) * 256 + d) &&& maskOf p, p)
      | _, _, _, _, _ => none
    | _ => none
  | _ => none

/-- Dotted-quad rendering of a 32-bit address (Go's `ip.String()`). -/
def ipToString (n : Nat) : String :=
  natToString (n / 2 ^ 24 % 256) ++ "." ++ natToString (n / 2 ^ 16 % 256) ++ "."
    ++ natToString (n / 2 ^ 8 % 256) ++ "." ++ natToString (n % 256)

/-! ### The discovery worker pool (src/main.go lines 112-130)

`scanNetwork` starts `W` goroutines draining the shared channel `ipChan`; the
Go channel guarantees each sent value is received by exactly one worker.  The
run is modelled by an arbitrary `dispatch` assigning each address to the
worker that receives it (the enumerated list is duplicate-free for `p ≥ 1`,
so dispatching by address value is fully general); each worker probes its
items in order and appends positives to the shared, mutex-guarded `printers`
slice, whose final content is therefore some interleaving of the workers'
per-worker result lists — an unordered collection, compared as a multiset. -/

/-- Addresses received by worker `w` under a given dispatch. -/
def workerInput (W : Nat) (dispatch : Nat → Fin W) (addrs : List Nat)
    (w : Fin W) : List Nat :=
  addrs.filter (fun a => dispatch a == w)

/-- Multiset of all probe invocations performed by the pool. -/
def poolProbed (W : Nat) (dispatch : Nat → Fin W) (addrs : List Nat) :
    Multiset Nat :=
  ∑ w : Fin W, (workerInput W dispatch addrs w : Multiset Nat)

/-- Multiset of addresses appended to `printers` (those whose probe reported
positive). -/
def poolFound (W : Nat) (dispatch : Nat → Fin W) (probe : Nat → Bool)
    (addrs : List Nat) : Multiset Nat :=
  ∑ w : Fin W, ((workerInput W dispatch addrs w).filter probe : Multiset Nat)

/-! ### Exact model of the float64 percentage (src/main.go lines 241-243, 290-292)

The Go code computes `percent := (float64(level) / float64(capacity)) * 100`
followed by `int(percent)`.  IEEE-754 binary64 arithmetic is modelled exactly
over rational numbers, represented as explicit numerator/denominator pairs
with positive denominators (kept unreduced, so every operation is plain
integer arithmetic): each float64 operation computes the exact rational
result and rounds it to 53 significant bits with round-to-nearest,
ties-to-even.  Subnormals and overflow are not modelled (all values occurring
in the percentage computation for levels/capacities of realistic magnitude
are normal and finite). -/

/-- An exact (unreduced) fraction; every constructed value has a positive
denominator. -/
structure Frac where
  num : Int
  den : Int
deriving DecidableEq

/-- Embed an integer. -/
def fracOfInt (i : Int) : Frac := ⟨i, 1⟩

/-- Exact product. -/
def fracMul (x y : Frac) : Frac := ⟨x.num * y.num, x.den * y.den⟩

/-- Exact quotient (sign moved to the numerator; division by zero yields 0,
unreachable under the render guard `capacity > 0`). -/
def fracDiv (x y : Frac) : Frac :=
  if 0 < y.num then ⟨x.num * y.den, x.den * y.num⟩
  else if y.num < 0 then ⟨-(x.num * y.den), -(x.den * y.num)⟩
  else ⟨0, 1⟩

/-- Exact difference. -/
def fracSub (x y : Frac) : Frac :=
  ⟨x.num * y.den - y.num * x.den, x.den * y.den⟩

/-- Negation. -/
def fracNeg (x : Frac) : Frac := ⟨-x.num, x.den⟩

/-- Strict comparison by cross-multiplication (valid for positive
denominators). -/
def fracLt (x y : Frac) : Bool := x.num * y.den < y.num * x.den

/-- Non-strict comparison. -/
def fracLe (x y : Frac) : Bool := x.num * y.den ≤ y.num * x.den

/-- Floor of a fraction with positive denominator. -/
def fracFloor (x : Frac) : Int := Int.ediv x.num x.den

/-- Round to the nearest integer, ties to even. -/
def roundHalfEven (x : Frac) : Int :=
  let fl := fracFloor x
  let fr := fracSub x (fracOfInt fl)
  if fracLt fr ⟨1, 2⟩ then fl
  else if fracLt ⟨1, 2⟩ fr then fl + 1
  else if fl % 2 = 0 then fl else fl + 1

/-- Largest `e` with `2^e ≤ q`, for `q ≥ 1` (fuel-bounded). -/
def floorLog2Aux : Nat → Frac → Nat
  | 0, _ => 0
  | f + 1, q =>
    if fracLt q ⟨2, 1⟩ then 0
    else floorLog2Aux f ⟨q.num, q.den * 2⟩ + 1

/-- Smallest `k` with `q * 2^k ≥ 1`, for `0 < q < 1`. -/
def negExpAux : Nat → Frac → Nat
  | 0, _ => 0
  | f + 1, q =>
    if fracLe ⟨1, 1⟩ q then 0
    else negExpAux f ⟨q.num * 2, q.den⟩ + 1

/-- Binary exponent of a positive fraction: the `e` with `2^e ≤ q < 2^(e+1)`.
The fuel 5000 covers every exponent reachable from binary64 values. -/
def floorLog2 (q : Frac) : Int :=
  if fracLe ⟨1, 1⟩ q then (floorLog2Aux 5000 q : Int)
  else -(negExpAux 5000 q : Int)

/-- Integer power of two as a fraction, for a signed exponent. -/
def pow2frac (e : Int) : Frac :=
  if 0 ≤ e then ⟨Int.ofNat (2 ^ e.toNat), 1⟩ else ⟨1, Int.ofNat (2 ^ (-e).toNat)⟩

/-- Round a positive fraction to the nearest binary64 value (53-bit mantissa,
round-to-nearest, ties to even). -/
def fl64pos (q : Frac) : Frac :=
  let e : Int := floorLog2 q
  let m : Int := roundHalfEven (fracMul q (pow2frac (52 - e)))
  fracMul (fracOfInt m) (pow2frac (e - 52))

/-- Round any fraction to the nearest binary64 value. -/
def fl64 (q : Frac) : Frac :=
  if q.num = 0 then ⟨0, 1⟩
  else if 0 < q.num then fl64pos q
  else fracNeg (fl64pos (fracNeg q))

/-- Go's `int(f)`: truncation toward zero. -/
def truncToInt (q : Frac) : Int :=
  if 0 ≤ q.num then fracFloor q else -fracFloor (fracNeg q)

/-- The percentage the Go code prints:
`int((float64(level) / float64(capacity)) * 100)` with every float64
operation (conversion, division, multiplication) rounding to nearest-even. -/
def goFloatPercent (level cap : ℤ) : ℤ :=
  truncToInt (fl64 (fracMul
    (fl64 (fracDiv (fl64 (fracOfInt level)) (fl64 (fracOfInt cap))))
    (fracOfInt 100)))

/-- Modelled from the spec: `round_down(100 * level / capacity)` — the floor
of the exact rational. -/
def specFloorPercent (level cap : ℤ) : ℤ := Int.ediv (100 * level) cap

/-! ### The detail collector `pollPrinter` (src/main.go lines 145-299)

SNMP values arrive dynamically typed; the Go code matches them with type
assertions (`.(string)`, `.(int)`), so the model uses a closed variant type.
Walk outcomes are the error value of `params.Walk` together with the PDU list
passed to the callback.  Go map iteration order is unspecified; the
accumulated tables are modelled as insertion-ordered association lists
(claims about the report are order-independent).  Each `fmt.Printf` line is
one string in the output list (the terminating newline of each printed line
is left implicit in the list structure). -/

/-- Dynamically-typed SNMP value: string, integer, or any other payload
(failing both type assertions). -/
inductive SnmpValue where
  | str (s : String)
  | int (i : Int)
  | other
deriving DecidableEq

/-- One variable binding returned by a Get or Walk (`gosnmp.SnmpPDU`). -/
structure Pdu where
  name : String
  value : SnmpValue
deriving DecidableEq

/-- `Supply` struct (src/main.go lines 26-30); Go zero values. -/
structure Supply where
  Description : String := ""
  Level : Int := 0
  MaxCapacity : Int := 0
deriving DecidableEq

/-- `Tray` struct (src/main.go lines 33-37); Go zero values. -/
structure Tray where
  Name : String := ""
  CurrentLevel : Int := 0
  MaxCapacity : Int := 0
deriving DecidableEq

/-- Digits-only decimal value of a character list, `none` on any non-digit. -/
def decDigits (cs : List Char) : Option Nat :=
  cs.foldl
    (fun acc c =>
      match acc with
      | none => none
      | some n => if c.isDigit then some (n * 10 + (c.toNat - 48)) else none)
    (some 0)

/-- Model of `index, _ := strconv.Atoi(s)`: the parsed value, the clamped
int64 bound on range error, and 0 on a syntax error (the error is ignored by
the Go code, leaving the zero value). -/
def goAtoi (cs : List Char) : Int :=
  let split : Bool × List Char :=
    match cs with
    | '+' :: rest => (false, rest)
    | '-' :: rest => (true, rest)
    | rest => (false, rest)
  match split.2 with
  | [] => 0
  | ds =>
    match decDigits ds with
    | none => 0
    | some n =>
      let v : Int := if split.1 then -(n : Int) else (n : Int)
      if v < -(2 ^ 63) then -(2 ^ 63)
      else if (2 ^ 63 - 1 : Int) < v then 2 ^ 63 - 1
      else v

/-- Index of a walk entry: `strconv.Atoi(parts[len(parts)-1])` with the error
discarded. -/
def pduIndex (name : String) : Int :=
  goAtoi ((splitChar '.' name.data).getLastD [])

/-- Read `supplies[index]`, Go-map style: the zero value when absent. -/
def getSupply (m : List (Int × Supply)) (k : Int) : Supply :=
  (m.lookup k).getD {}

/-- Write `supplies[index] = v`, preserving first-insertion order. -/
def setSupply : List (Int × Supply) → Int → Supply → List (Int × Supply)
  | [], k, v => [(k, v)]
  | (k', v') :: t, k, v =>
    if k' = k then (k, v) :: t else (k', v') :: setSupply t k v

/-- Read `trays[index]`. -/
def getTray (m : List (Int × Tray)) (k : Int) : Tray :=
  (m.lookup k).getD {}

/-- Write `trays[index] = v`. -/
def setTray : List (Int × Tray) → Int → Tray → List (Int × Tray)
  | [], k, v => [(k, v)]
  | (k', v') :: t, k, v =>
    if k' = k then (k, v) :: t else (k', v') :: setTray t k v

/-- Callback body of the supplies walk (src/main.go lines 206-232): skip
names with fewer than two dot-components, key by `Atoi` of the last
component, and populate the field selected by `strings.HasPrefix` against the
three column roots, in source order .6 / .9 / .8. -/
def processSupplyPdu (m : List (Int × Supply)) (v : Pdu) :
    List (Int × Supply) :=
  let parts := splitChar '.' v.name.data
  if parts.length < 2 then m
  else
    let index := goAtoi (parts.getLastD [])
    let supply := getSupply m index
    let supply :=
      if ".1.3.6.1.2.1.43.11.1.1.6".data.isPrefixOf v.name.data then
        match v.value with
        | .str s => { supply with Description := s }
        | _ => supply
      else if ".1.3.6.1.2.1.43.11.1.1.9".data.isPrefixOf v.name.data then
        match v.value with
        | .int i => { supply with Level := i }
        | _ => supply
      else if ".1.3.6.1.2.1.43.11.1.1.8".data.isPrefixOf v.name.data then
        match v.value with
        | .int i => { supply with MaxCapacity := i }
        | _ => supply
      else supply
    setSupply m index supply

/-- Callback body of the trays walk (src/main.go lines 255-281), column roots
.2 / .9 / .8 of the paper-input table. -/
def processTrayPdu (m : List (Int × Tray)) (v : Pdu) : List (Int × Tray) :=
  let parts := splitChar '.' v.name.data
  if parts.length < 2 then m
  else
    let index := goAtoi (parts.getLastD [])
    let tray := getTray m index
    let tray :=
      if ".1.3.6.1.2.1.43.8.2.1.2".data.isPrefixOf v.name.data then
        match v.value with
        | .str s => { tray with Name := s }
        | _ => tray
      else if ".1.3.6.1.2.1.43.8.2.1.9".data.isPrefixOf v.name.data then
        match v.value with
        | .int i => { tray with CurrentLevel := i }
        | _ => tray
      else if ".1.3.6.1.2.1.43.8.2.1.8".data.isPrefixOf v.name.data then
        match v.value with
        | .int i => { tray with MaxCapacity := i }
        | _ => tray
      else tray
    setTray m index tray

/-- One supplies line (src/main.go lines 236-247): placeholder description,
percentage when `MaxCapacity > 0 && Level >= 0`, else an `(unknown)` marker
exactly when the level is the sentinel -3. -/
def renderSupplyLine (s : Supply) : String :=
  let desc := if s.Description = "" then "Unknown Supply" else s.Description
  let base := "    - " ++ desc ++ ": " ++ intToString s.Level
  if 0 < s.MaxCapacity ∧ 0 ≤ s.Level then
    base ++ " (" ++ intToString (goFloatPercent s.Level s.MaxCapacity) ++ "% of "
      ++ intToString s.MaxCapacity ++ ")"
  else if s.Level = -3 then base ++ " (unknown)"
  else base

/-- One trays line (src/main.go lines 285-294): placeholder name and
percentage as for supplies, but with no `(unknown)` branch. -/
def renderTrayLine (t : Tray) : String :=
  let nm := if t.Name = "" then "Unknown Tray" else t.Name
  let base := "    - " ++ nm ++ ": " ++ intToString t.CurrentLevel
  if 0 < t.MaxCapacity ∧ 0 ≤ t.CurrentLevel then
    base ++ " (" ++ intToString (goFloatPercent t.CurrentLevel t.MaxCapacity)
      ++ "% of " ++ intToString t.MaxCapacity ++ ")"
  else base

/-- Supplies block of the report (src/main.go lines 233-251): rendered when
the walk succeeded and produced at least one record, otherwise the no-data
note (`%v` of a nil error prints `<nil>`). -/
def suppliesSection (walk : Except String (List Pdu)) : List String :=
  match walk with
  | .ok pdus =>
    let supplies := pdus.foldl processSupplyPdu []
    if 0 < supplies.length then
      "  Supplies:" :: supplies.map (fun e => renderSupplyLine e.2)
    else ["  Supplies: (No data available: <nil>)"]
  | .error e => ["  Supplies: (No data available: " ++ e ++ ")"]

/-- Paper-trays block of the report (src/main.go lines 282-298). -/
def traysSection (walk : Except String (List Pdu)) : List String :=
  match walk with
  | .ok pdus =>
    let trays := pdus.foldl processTrayPdu []
    if 0 < trays.length then
      "  Paper Trays:" :: trays.map (fun e => renderTrayLine e.2)
    else ["  Paper Trays: (No data available: <nil>)"]
  | .error e => ["  Paper Trays: (No data available: " ++ e ++ ")"]

/-- `printerStatusMap` (src/main.go lines 17-23). -/
def printerStatusMap : List (Int × String) :=
  [(1, "other"), (2, "unknown"), (3, "idle"), (4, "printing"), (5, "warmup")]

/-- Phase-1 variable rendering (src/main.go lines 186-211): the switch over
the four fixed OIDs; a value of unexpected type, or an empty string, prints
nothing. -/
def renderVariable (v : Pdu) : List String :=
  if v.name = ".1.3.6.1.2.1.1.1.0" then
    match v.value with
    | .str s => if s = "" then [] else ["  System Description: " ++ s]
    | _ => []
  else if v.name = ".1.3.6.1.2.1.43.5.1.1.16.1" then
    match v.value with
    | .str s => if s = "" then [] else ["  Printer Name: " ++ s]
    | _ => []
  else if v.name = ".1.3.6.1.2.1.25.3.5.1.1.1" then
    match v.value with
    | .int n =>
      match printerStatusMap.lookup n with
      | some st => ["  Printer Status: " ++ st]
      | none => ["  Printer Status: " ++ intToString n ++ " (unknown)"]
    | _ => []
  else if v.name = ".1.3.6.1.2.1.43.10.2.1.4.1" then
    match v.value with
    | .int n => ["  Total Pages Printed: " ++ intToString n]
    | _ => []
  else []

/-- Per-device SNMP responses: the outcome of `Connect`, of the batch `Get`,
and of the two `Walk`s — the inputs that determine one device's report. -/
structure DeviceData where
  connect : Except String Unit
  get1 : Except String (List Pdu)
  suppliesWalk : Except String (List Pdu)
  traysWalk : Except String (List Pdu)

/-- `pollPrinter` (src/main.go lines 145-299) as a function from the device's
responses to the emitted report lines: connect failure and Get failure abort
with a single inline error line; otherwise header, phase-1 lines and the two
table sections. -/
def pollPrinter (ip : String) (d : DeviceData) : List String :=
  match d.connect with
  | .error e => ["❌ Failed to connect to " ++ ip ++ ": " ++ e]
  | .ok _ =>
    match d.get1 with
    | .error e => ["❌ SNMP Get error for " ++ ip ++ ": " ++ e]
    | .ok vars =>
      (("🖨️ Printer Report for " ++ ip ++ ":")
          :: (vars.map renderVariable).flatten)
        ++ suppliesSection d.suppliesWalk ++ traysSection d.traysWalk

/-- Sequential detail collection over the discovered devices (the `for _,
printer := range printers` loop of `main`). -/
def runDetails (devs : List (String × DeviceData)) : List (List String) :=
  devs.map (fun x => pollPrinter x.1 x.2)

/-- Process outcome: `fatal` is `log.Fatalf` (exit status 1), `success` is
normal completion (exit status 0) carrying the per-device reports. -/
inductive MainOutcome where
  | fatal (msg : String)
  | success (reports : List (List String))

/-- End-to-end driver (`main` + `scanNetwork`): parse the CIDR (failure is
fatal before any probe), run the enumeration loop (`none` when the loop has
not exited within `2^32` iterations — more than any block's size — modelling
non-termination), probe every enumerated address, and poll each positive.
Every per-device failure is contained inside `pollPrinter`; nothing after a
successful parse can produce a `fatal` outcome. -/
def runMain (cidr : String) (probe : Nat → Bool) (detail : Nat → DeviceData) :
    Option MainOutcome :=
  match parseCIDR cidr with
  | none => some (.fatal "Invalid CIDR")
  | some (net, p) =>
    let r := scanLoopFuel net p (2 ^ 32) net
    if r.2 then
      some (.success ((r.1.filter probe).map
        (fun a => pollPrinter (ipToString a) (detail a))))
    else none

/-! ## Proofs -/

lemma incBytes_toNat (a b c d : Nat) (ha : a < 256) (hb : b < 256)
    (hc : c < 256) (hd : d < 256) :
    ipToNat (incBytes [a, b, c, d]) = (ipToNat [a, b, c, d] + 1) % 2 ^ 32 := by
  have h32 : (2 : ℕ) ^ 32 = 4294967296 := by norm_num
  by_cases h1 : d < 255
  · simp only [incBytes, ipToNat, if_pos h1, h32]; omega
  · by_cases h2 : c < 255
    · simp only [incBytes, ipToNat, if_neg h1, if_pos h2, h32]; omega
    · by_cases h3 : b < 255
      · simp only [incBytes, ipToNat, if_neg h1, if_neg h2, if_pos h3, h32]; omega
      · by_cases h4 : a < 255
        · simp only [incBytes, ipToNat, if_neg h1, if_neg h2, if_neg h3, if_pos h4, h32]
          omega
        · simp only [incBytes, ipToNat, if_neg h1, if_neg h2, if_neg h3, if_neg h4, h32]
          omega

lemma incBytes_valid (a b c d : Nat) (ha : a < 256) (hb : b < 256)
    (hc : c < 256) (hd : d < 256) :
    validIP (incBytes [a, b, c, d]) := by
  unfold incBytes validIP
  by_cases h1 : d < 255
  · simp only [if_pos h1]
    refine ⟨rfl, ?_⟩
    intro x hx
    simp only [List.mem_cons, List.not_mem_nil, or_false] at hx
    rcases hx with rfl | rfl | rfl | rfl <;> omega
  · by_cases h2 : c < 255
    · simp only [if_neg h1, if_pos h2]
      refine ⟨rfl, ?_⟩
      intro x hx
      simp only [List.mem_cons, List.not_mem_nil, or_false] at hx
      rcases hx with rfl | rfl | rfl | rfl <;> omega
    · by_cases h3 : b < 255
      · simp only [if_neg h1, if_neg h2, if_pos h3]
        refine ⟨rfl, ?_⟩
        intro x hx
        simp only [List.mem_cons, List.not_mem_nil, or_false] at hx
        rcases hx with rfl | rfl | rfl | rfl <;> omega
      · by_cases h4 : a < 255
        · simp only [if_neg h1, if_neg h2, if_neg h3, if_pos h4]
          refine ⟨rfl, ?_⟩
          intro x hx
          simp only [List.mem_cons, List.not_mem_nil, or_false] at hx
          rcases hx with rfl | rfl | rfl | rfl <;> omega
        · simp only [if_neg h1, if_neg h2, if_neg h3, if_neg h4]
          refine ⟨rfl, ?_⟩
          intro x hx
          simp only [List.mem_cons, List.not_mem_nil, or_false] at hx
          rcases hx with rfl | rfl | rfl | rfl <;> omega

/-- Helper: a valid 4-octet address is a literal quadruple with octet bounds. -/
lemma validIP_elim {ip : List Nat} (h : validIP ip) :
    ∃ a b c d, ip = [a, b, c, d] ∧ a < 256 ∧ b < 256 ∧ c < 256 ∧ d < 256 := by
  obtain ⟨hlen, hmem⟩ := h
  match ip, hlen with
  | [a, b, c, d], _ =>
    exact ⟨a, b, c, d, rfl, hmem a (by simp), hmem b (by simp), hmem c (by simp),
      hmem d (by simp)⟩

lemma land_mask (a z : Nat) (hz : z ≤ 32) (ha : a < 2 ^ 32) :
    a &&& (2 ^ 32 - 2 ^ z) = a / 2 ^ z * 2 ^ z := by
  have hpow : (2 : ℕ) ^ (32 - z) * 2 ^ z = 2 ^ 32 := by
    rw [← pow_add]
    congr 1
    omega
  have hfac : (2 : ℕ) ^ 32 - 2 ^ z = (2 ^ (32 - z) - 1) * 2 ^ z := by
    rw [Nat.sub_mul, one_mul, hpow]
  rw [hfac, ← Nat.shiftRight_eq_div_pow]
  rw [show (2 ^ (32 - z) - 1) * 2 ^ z = (2 ^ (32 - z) - 1) <<< z from
    (Nat.shiftLeft_eq _ _).symm]
  rw [show a >>> z * 2 ^ z = (a >>> z) <<< z from (Nat.shiftLeft_eq _ _).symm]
  apply Nat.eq_of_testBit_eq
  intro i
  rw [Nat.testBit_and, Nat.testBit_shiftLeft, Nat.testBit_shiftLeft,
    Nat.testBit_shiftRight, Nat.testBit_two_pow_sub_one]
  by_cases hzi : z ≤ i
  · have hadd : z + (i - z) = i := by omega
    rw [hadd]
    by_cases hi32 : i < 32
    · have h1 : i - z < 32 - z := by omega
      simp [hzi, h1, ge_iff_le]
    · have hbit : a.testBit i = false :=
        Nat.testBit_lt_two_pow
          (lt_of_lt_of_le ha (Nat.pow_le_pow_right (by norm_num) (by omega)))
      simp [hbit, hzi, ge_iff_le]
  · simp [hzi, ge_iff_le]

lemma containsAddr_iff (net p a : Nat) (hp : p ≤ 32) (ha : a < 2 ^ 32) :
    containsAddr net p a = true ↔ a / 2 ^ (32 - p) * 2 ^ (32 - p) = net := by
  unfold containsAddr maskOf
  rw [beq_iff_eq, land_mask a (32 - p) (by omega) ha]

/-- On a `/0` block the `Contains` test is always true: the mask is zero. -/
lemma containsAddr_zero (net a : Nat) (hnet : net = 0) :
    containsAddr net 0 a = true := by
  subst hnet
  unfold containsAddr maskOf
  simp

/-- On the `/0` block the loop emits one address per iteration and never
exits, whatever the fuel: it re-enumerates the 32-bit space cyclically. -/
lemma scanLoopFuel_zero_cidr (fuel : Nat) :
    ∀ a, a < 2 ^ 32 →
      scanLoopFuel 0 0 fuel a =
        ((List.range fuel).map (fun k => (a + k) % 2 ^ 32), false) := by
  induction fuel with
  | zero => intro a _; simp [scanLoopFuel]
  | succ n ih =>
    intro a ha
    have hc : containsAddr 0 0 a = true := containsAddr_zero 0 a rfl
    have hlt : (a + 1) % 2 ^ 32 < 2 ^ 32 := Nat.mod_lt _ (by norm_num)
    have hfun : ((fun k => (a + k) % 2 ^ 32) ∘ Nat.succ)
        = fun k => ((a + 1) % 2 ^ 32 + k) % 2 ^ 32 := by
      funext k
      simp only [Function.comp]
      rw [Nat.mod_add_mod]
      congr 1
      omega
    simp only [scanLoopFuel, hc, if_true, ih ((a + 1) % 2 ^ 32) hlt]
    rw [List.range_succ_eq_map, List.map_cons, List.map_map, hfun]
    simp only [Prod.mk.injEq, List.cons.injEq]
    refine ⟨⟨?_, trivial⟩, trivial⟩
    omega

/-- On a block of prefix length `p ≥ 1` the loop, started at the (aligned)
network address `q * 2^(32-p)` shifted by `j`, emits the remaining addresses
of the block in ascending order and exits. -/
lemma scanLoopFuel_complete (q p : Nat) (hp1 : 1 ≤ p) (hp : p ≤ 32)
    (hq : q < 2 ^ p) (fuel : Nat) :
    ∀ j, j ≤ 2 ^ (32 - p) → 2 ^ (32 - p) - j < fuel →
      scanLoopFuel (q * 2 ^ (32 - p)) p fuel ((q * 2 ^ (32 - p) + j) % 2 ^ 32) =
        ((List.range (2 ^ (32 - p) - j)).map (fun k => q * 2 ^ (32 - p) + j + k),
          true) := by
  have hBpos : 0 < 2 ^ (32 - p) := Nat.pos_pow_of_pos _ (by norm_num)
  have hB32 : (2 : ℕ) ^ (32 - p) * 2 ^ p = 2 ^ 32 := by
    rw [← pow_add]
    congr 1
    omega
  have hnet32 : (q + 1) * 2 ^ (32 - p) ≤ 2 ^ 32 := by
    calc (q + 1) * 2 ^ (32 - p) ≤ 2 ^ p * 2 ^ (32 - p) :=
          Nat.mul_le_mul_right _ (by omega)
    _ = 2 ^ 32 := by rw [mul_comm]; exact hB32
  induction fuel with
  | zero => intro j _ hf; omega
  | succ n ih =>
    intro j hj hf
    by_cases hjB : j < 2 ^ (32 - p)
    · -- still inside the block: emit and continue
      have haddr : q * 2 ^ (32 - p) + j < 2 ^ 32 := by
        have : q * 2 ^ (32 - p) + j < (q + 1) * 2 ^ (32 - p) := by
          rw [add_mul, one_mul]
          omega
        omega
      have hmod : (q * 2 ^ (32 - p) + j) % 2 ^ 32 = q * 2 ^ (32 - p) + j :=
        Nat.mod_eq_of_lt haddr
      have hcon : containsAddr (q * 2 ^ (32 - p)) p (q * 2 ^ (32 - p) + j) = true := by
        rw [containsAddr_iff _ _ _ hp haddr]
        rw [mul_comm q (2 ^ (32 - p)), Nat.mul_add_div hBpos,
          Nat.div_eq_of_lt hjB]
        ring
      rw [hmod]
      simp only [scanLoopFuel, hcon, if_true]
      have hstep : (q * 2 ^ (32 - p) + j + 1) = q * 2 ^ (32 - p) + (j + 1) := by
        omega
      rw [hstep, ih (j + 1) (by omega) (by omega)]
      have hsucc : 2 ^ (32 - p) - j = (2 ^ (32 - p) - (j + 1)) + 1 := by omega
      have hfun : ((fun k => q * 2 ^ (32 - p) + j + k) ∘ Nat.succ)
          = fun k => q * 2 ^ (32 - p) + (j + 1) + k := by
        funext k
        simp only [Function.comp]
        omega
      rw [hsucc, List.range_succ_eq_map, List.map_cons, List.map_map, hfun]
      simp only [Prod.mk.injEq, List.cons.injEq]
      refine ⟨⟨?_, trivial⟩, trivial⟩
      simp
    · -- block exhausted: Contains is false and the loop exits
      have hjeq : j = 2 ^ (32 - p) := by omega
      subst hjeq
      have hnext : q * 2 ^ (32 - p) + 2 ^ (32 - p) = (q + 1) * 2 ^ (32 - p) := by
        ring
      have hBlt : (2 : ℕ) ^ (32 - p) < 2 ^ 32 :=
        Nat.pow_lt_pow_right (by norm_num) (by omega)
      have hcon : containsAddr (q * 2 ^ (32 - p)) p
          (((q + 1) * 2 ^ (32 - p)) % 2 ^ 32) = false := by
        by_cases htop : (q + 1) * 2 ^ (32 - p) = 2 ^ 32
        · rw [htop, Nat.mod_self]
          rw [Bool.eq_false_iff]
          intro hcontra
          rw [containsAddr_iff _ _ _ hp (by norm_num : (0:ℕ) < 2 ^ 32)] at hcontra
          rw [Nat.zero_div, Nat.zero_mul] at hcontra
          have hq0 : q = 0 := by
            rcases Nat.mul_eq_zero.mp hcontra.symm with h | h
            · exact h
            · omega
          subst hq0
          omega
        · have hlt : (q + 1) * 2 ^ (32 - p) < 2 ^ 32 := by omega
          rw [Nat.mod_eq_of_lt hlt, Bool.eq_false_iff]
          intro hcontra
          rw [containsAddr_iff _ _ _ hp hlt] at hcontra
          have hdiv : (q + 1) * 2 ^ (32 - p) / 2 ^ (32 - p) = q + 1 :=
            Nat.mul_div_cancel _ hBpos
          rw [hdiv] at hcontra
          have hcontra' : (q + 1) * 2 ^ (32 - p) = q * 2 ^ (32 - p) := hcontra
          nlinarith [hBpos]
      rw [hnext]
      simp only [scanLoopFuel, hcon, Bool.false_eq_true, if_false, Nat.sub_self,
        List.range_zero, List.map_nil]

/-- For `p ≥ 1`, starting at the aligned network address, the loop emits the
whole block in ascending order and exits within `2^32` iterations. -/
lemma enum_complete (q p : Nat) (hp1 : 1 ≤ p) (hp : p ≤ 32) (hq : q < 2 ^ p) :
    scanLoopFuel (q * 2 ^ (32 - p)) p (2 ^ 32) (q * 2 ^ (32 - p)) =
      (specBlockAddrs q p, true) := by
  have hBpos : 0 < 2 ^ (32 - p) := Nat.two_pow_pos _
  have hB32 : (2 : ℕ) ^ p * 2 ^ (32 - p) = 2 ^ 32 := by
    rw [← pow_add]
    congr 1
    omega
  have hnet : q * 2 ^ (32 - p) < 2 ^ 32 := by
    have h1 : (q + 1) * 2 ^ (32 - p) ≤ 2 ^ p * 2 ^ (32 - p) :=
      Nat.mul_le_mul_right _ (by omega)
    have h3 : q * 2 ^ (32 - p) + 2 ^ (32 - p) = (q + 1) * 2 ^ (32 - p) := by ring
    omega
  have hBlt : (2 : ℕ) ^ (32 - p) < 2 ^ 32 :=
    Nat.pow_lt_pow_right (by norm_num) (by omega)
  have h := scanLoopFuel_complete q p hp1 hp hq (2 ^ 32) 0 (by omega) (by omega)
  simp only [Nat.add_zero, Nat.sub_zero, Nat.mod_eq_of_lt hnet] at h
  rw [h]
  rfl

lemma specBlockAddrs_nodup (q p : Nat) : (specBlockAddrs q p).Nodup := by
  unfold specBlockAddrs
  exact (List.nodup_range _).map (fun a b h => by omega)

lemma specBlockAddrs_sorted (q p : Nat) :
    (specBlockAddrs q p).Sorted (· < ·) := by
  unfold specBlockAddrs
  exact List.Pairwise.map _ (fun a b h => by omega) (List.pairwise_lt_range _)

/-- Channel exactly-once delivery: however the queue items are dispatched to
workers, the multiset of probe invocations is exactly the multiset of
enqueued addresses. -/
lemma pool_partition (W : Nat) (dispatch : Nat → Fin W) (addrs : List Nat) :
    poolProbed W dispatch addrs = (addrs : Multiset Nat) := by
  unfold poolProbed workerInput
  induction addrs with
  | nil => simp
  | cons a t ih =>
    have hstep : ∀ w : Fin W,
        (((a :: t).filter (fun x => dispatch x == w) : List Nat) : Multiset Nat)
          = (if dispatch a = w then ({a} : Multiset Nat) else 0)
            + ((t.filter (fun x => dispatch x == w) : List Nat) : Multiset Nat) := by
      intro w
      by_cases h : dispatch a = w
      · simp [List.filter_cons, h]
      · simp [List.filter_cons, h]
    rw [Finset.sum_congr rfl (fun w _ => hstep w), Finset.sum_add_distrib, ih]
    rw [Finset.sum_ite_eq Finset.univ (dispatch a)
      (fun _ => ({a} : Multiset Nat))]
    simp

/-- The positives gathered by the pool are exactly the probe-filtered
enumeration, as a multiset, for any dispatch. -/
lemma pool_partition_filter (W : Nat) (dispatch : Nat → Fin W)
    (probe : Nat → Bool) (addrs : List Nat) :
    poolFound W dispatch probe addrs
      = ((addrs.filter probe : List Nat) : Multiset Nat) := by
  have hcomm : ∀ w : Fin W,
      (workerInput W dispatch addrs w).filter probe
        = workerInput W dispatch (addrs.filter probe) w := by
    intro w
    unfold workerInput
    rw [List.filter_filter, List.filter_filter]
    congr 1
    funext a
    exact Bool.and_comm _ _
  unfold poolFound
  rw [Finset.sum_congr rfl (fun w _ => by rw [hcomm w])]
  exact pool_partition W dispatch (addrs.filter probe)

lemma getSupply_setSupply_same (m : List (Int × Supply)) (k : Int) (v : Supply) :
    getSupply (setSupply m k v) k = v := by
  induction m with
  | nil => simp [setSupply, getSupply]
  | cons e t ih =>
    obtain ⟨k', v'⟩ := e
    by_cases h : k' = k
    · subst h
      simp [setSupply, getSupply]
    · have hbeq : (k == k') = false := beq_eq_false_iff_ne.mpr fun hh => h hh.symm
      simp only [setSupply, if_neg h, getSupply, List.lookup_cons, hbeq]
      exact ih

lemma getSupply_setSupply_other (m : List (Int × Supply)) (k k₂ : Int)
    (v : Supply) (hk : k₂ ≠ k) :
    getSupply (setSupply m k v) k₂ = getSupply m k₂ := by
  have hbk : (k₂ == k) = false := beq_eq_false_iff_ne.mpr hk
  induction m with
  | nil => simp [setSupply, getSupply, List.lookup_cons, hbk]
  | cons e t ih =>
    obtain ⟨k', v'⟩ := e
    by_cases h : k' = k
    · subst h
      simp [setSupply, getSupply, List.lookup_cons, hbk]
    · simp only [setSupply, if_neg h, getSupply, List.lookup_cons]
      cases hc : (k₂ == k') with
      | true => simp
      | false => exact ih

lemma getTray_setTray_same (m : List (Int × Tray)) (k : Int) (v : Tray) :
    getTray (setTray m k v) k = v := by
  induction m with
  | nil => simp [setTray, getTray]
  | cons e t ih =>
    obtain ⟨k', v'⟩ := e
    by_cases h : k' = k
    · subst h
      simp [setTray, getTray]
    · have hbeq : (k == k') = false := beq_eq_false_iff_ne.mpr fun hh => h hh.symm
      simp only [setTray, if_neg h, getTray, List.lookup_cons, hbeq]
      exact ih

lemma getTray_setTray_other (m : List (Int × Tray)) (k k₂ : Int)
    (v : Tray) (hk : k₂ ≠ k) :
    getTray (setTray m k v) k₂ = getTray m k₂ := by
  have hbk : (k₂ == k) = false := beq_eq_false_iff_ne.mpr hk
  induction m with
  | nil => simp [setTray, getTray, List.lookup_cons, hbk]
  | cons e t ih =>
    obtain ⟨k', v'⟩ := e
    by_cases h : k' = k
    · subst h
      simp [setTray, getTray, List.lookup_cons, hbk]
    · simp only [setTray, if_neg h, getTray, List.lookup_cons]
      cases hc : (k₂ == k') with
      | true => simp
      | false => exact ih

/-- A walk entry touches only the record at its own index. -/
lemma processSupplyPdu_other_key (m : List (Int × Supply)) (v : Pdu) (k : Int)
    (hk : k ≠ pduIndex v.name) :
    getSupply (processSupplyPdu m v) k = getSupply m k := by
  simp only [processSupplyPdu]
  by_cases hlen : (splitChar '.' v.name.data).length < 2
  · rw [if_pos hlen]
  · rw [if_neg hlen]
    exact getSupply_setSupply_other _ _ _ _ hk

lemma processTrayPdu_other_key (m : List (Int × Tray)) (v : Pdu) (k : Int)
    (hk : k ≠ pduIndex v.name) :
    getTray (processTrayPdu m v) k = getTray m k := by
  simp only [processTrayPdu]
  by_cases hlen : (splitChar '.' v.name.data).length < 2
  · rw [if_pos hlen]
  · rw [if_neg hlen]
    exact getTray_setTray_other _ _ _ _ hk

/-- An entry matching none of the three recognized column roots populates no
field of its record. -/
lemma processSupplyPdu_unrecognized (m : List (Int × Supply)) (v : Pdu)
    (hlen : ¬ (splitChar '.' v.name.data).length < 2)
    (h6 : ".1.3.6.1.2.1.43.11.1.1.6".data.isPrefixOf v.name.data = false)
    (h9 : ".1.3.6.1.2.1.43.11.1.1.9".data.isPrefixOf v.name.data = false)
    (h8 : ".1.3.6.1.2.1.43.11.1.1.8".data.isPrefixOf v.name.data = false) :
    getSupply (processSupplyPdu m v) (pduIndex v.name)
      = getSupply m (pduIndex v.name) := by
  simp only [processSupplyPdu]
  rw [if_neg hlen]
  simp only [h6, h9, h8, Bool.false_eq_true, if_false]
  exact getSupply_setSupply_same _ _ _

lemma processTrayPdu_unrecognized (m : List (Int × Tray)) (v : Pdu)
    (hlen : ¬ (splitChar '.' v.name.data).length < 2)
    (h2 : ".1.3.6.1.2.1.43.8.2.1.2".data.isPrefixOf v.name.data = false)
    (h9 : ".1.3.6.1.2.1.43.8.2.1.9".data.isPrefixOf v.name.data = false)
    (h8 : ".1.3.6.1.2.1.43.8.2.1.8".data.isPrefixOf v.name.data = false) :
    getTray (processTrayPdu m v) (pduIndex v.name)
      = getTray m (pduIndex v.name) := by
  simp only [processTrayPdu]
  rw [if_neg hlen]
  simp only [h2, h9, h8, Bool.false_eq_true, if_false]
  exact getTray_setTray_same _ _ _

/-- An entry whose identifier extends the description column root with a
string payload sets exactly the description of its record. -/
lemma processSupplyPdu_desc (m : List (Int × Supply)) (v : Pdu) (s : String)
    (hlen : ¬ (splitChar '.' v.name.data).length < 2)
    (h6 : ".1.3.6.1.2.1.43.11.1.1.6".data.isPrefixOf v.name.data = true)
    (hv : v.value = .str s) :
    getSupply (processSupplyPdu m v) (pduIndex v.name)
      = { getSupply m (pduIndex v.name) with Description := s } := by
  simp only [processSupplyPdu]
  rw [if_neg hlen]
  simp only [h6, if_true, hv]
  exact getSupply_setSupply_same _ _ _

lemma processSupplyPdu_level (m : List (Int × Supply)) (v : Pdu) (i : Int)
    (hlen : ¬ (splitChar '.' v.name.data).length < 2)
    (h6 : ".1.3.6.1.2.1.43.11.1.1.6".data.isPrefixOf v.name.data = false)
    (h9 : ".1.3.6.1.2.1.43.11.1.1.9".data.isPrefixOf v.name.data = true)
    (hv : v.value = .int i) :
    getSupply (processSupplyPdu m v) (pduIndex v.name)
      = { getSupply m (pduIndex v.name) with Level := i } := by
  simp only [processSupplyPdu]
  rw [if_neg hlen]
  simp only [h6, h9, Bool.false_eq_true, if_false, if_true, hv]
  exact getSupply_setSupply_same _ _ _

lemma processSupplyPdu_capacity (m : List (Int × Supply)) (v : Pdu) (i : Int)
    (hlen : ¬ (splitChar '.' v.name.data).length < 2)
    (h6 : ".1.3.6.1.2.1.43.11.1.1.6".data.isPrefixOf v.name.data = false)
    (h9 : ".1.3.6.1.2.1.43.11.1.1.9".data.isPrefixOf v.name.data = false)
    (h8 : ".1.3.6.1.2.1.43.11.1.1.8".data.isPrefixOf v.name.data = true)
    (hv : v.value = .int i) :
    getSupply (processSupplyPdu m v) (pduIndex v.name)
      = { getSupply m (pduIndex v.name) with MaxCapacity := i } := by
  simp only [processSupplyPdu]
  rw [if_neg hlen]
  simp only [h6, h9, h8, Bool.false_eq_true, if_false, if_true, hv]
  exact getSupply_setSupply_same _ _ _

lemma processTrayPdu_name (m : List (Int × Tray)) (v : Pdu) (s : String)
    (hlen : ¬ (splitChar '.' v.name.data).length < 2)
    (h2 : ".1.3.6.1.2.1.43.8.2.1.2".data.isPrefixOf v.name.data = true)
    (hv : v.value = .str s) :
    getTray (processTrayPdu m v) (pduIndex v.name)
      = { getTray m (pduIndex v.name) with Name := s } := by
  simp only [processTrayPdu]
  rw [if_neg hlen]
  simp only [h2, if_true, hv]
  exact getTray_setTray_same _ _ _

/-- A malformed name (fewer than two components) is skipped entirely. -/
lemma processSupplyPdu_skip (m : List (Int × Supply)) (v : Pdu)
    (hlen : (splitChar '.' v.name.data).length < 2) :
    processSupplyPdu m v = m := by
  simp only [processSupplyPdu]
  rw [if_pos hlen]

lemma processTrayPdu_skip (m : List (Int × Tray)) (v : Pdu)
    (hlen : (splitChar '.' v.name.data).length < 2) :
    processTrayPdu m v = m := by
  simp only [processTrayPdu]
  rw [if_pos hlen]

lemma setSupply_ne_nil (m : List (Int × Supply)) (k : Int) (v : Supply) :
    setSupply m k v ≠ [] := by
  cases m with
  | nil => simp [setSupply]
  | cons e t =>
    obtain ⟨k', v'⟩ := e
    by_cases h : k' = k <;> simp [setSupply, h]

lemma setTray_ne_nil (m : List (Int × Tray)) (k : Int) (v : Tray) :
    setTray m k v ≠ [] := by
  cases m with
  | nil => simp [setTray]
  | cons e t =>
    obtain ⟨k', v'⟩ := e
    by_cases h : k' = k <;> simp [setTray, h]

lemma processTrayPdu_ne_nil (m : List (Int × Tray)) (v : Pdu) (h : m ≠ []) :
    processTrayPdu m v ≠ [] := by
  simp only [processTrayPdu]
  by_cases hlen : (splitChar '.' v.name.data).length < 2
  · rw [if_pos hlen]
    exact h
  · rw [if_neg hlen]
    exact setTray_ne_nil _ _ _

lemma processTrayPdu_entry_ne_nil (m : List (Int × Tray)) (v : Pdu)
    (hlen : ¬ (splitChar '.' v.name.data).length < 2) :
    processTrayPdu m v ≠ [] := by
  simp only [processTrayPdu]
  rw [if_neg hlen]
  exact setTray_ne_nil _ _ _

lemma foldl_processTray_preserve (l : List Pdu) :
    ∀ m, m ≠ [] → l.foldl processTrayPdu m ≠ [] := by
  induction l with
  | nil => intro m h; simpa
  | cons v t ih =>
    intro m h
    exact ih _ (processTrayPdu_ne_nil m v h)

/-- A successful trays walk containing at least one entry with a dotted
identifier (at least two components) always materializes a record. -/
lemma foldl_processTray_ne_nil (pdus : List Pdu) (v : Pdu) (hmem : v ∈ pdus)
    (hlen : 2 ≤ (splitChar '.' v.name.data).length) :
    pdus.foldl processTrayPdu [] ≠ [] := by
  obtain ⟨s, t, rfl⟩ := List.append_of_mem hmem
  rw [List.foldl_append, List.foldl_cons]
  exact foldl_processTray_preserve t _
    (processTrayPdu_entry_ne_nil _ v (by omega))

lemma parseByte_le {cs : List Char} {n : Nat} (h : parseByte cs = some n) :
    n ≤ 255 := by
  simp only [parseByte] at h
  split_ifs at h
  injection h with h'
  omega

lemma parsePrefixLen_le {cs : List Char} {n : Nat}
    (h : parsePrefixLen cs = some n) : n ≤ 32 := by
  simp only [parsePrefixLen] at h
  split_ifs at h
  injection h with h'
  omega

/-- Whatever `net.ParseCIDR` accepts, the returned network address is below
`2^32`, aligned to the prefix, and the prefix length is at most 32. -/
lemma parseCIDR_sound {s : String} {net p : Nat}
    (h : parseCIDR s = some (net, p)) :
    p ≤ 32 ∧ ∃ q, q < 2 ^ p ∧ net = q * 2 ^ (32 - p) := by
  unfold parseCIDR at h
  split at h
  case _ =>
    split at h
    case _ =>
      split at h
      case _ a b c d pp ha hb hc hd hpp =>
        rw [Option.some.injEq, Prod.mk.injEq] at h
        obtain ⟨hnet, hp⟩ := h
        subst hp
        have hp32 : pp ≤ 32 := parsePrefixLen_le hpp
        have hva : a ≤ 255 := parseByte_le ha
        have hvb : b ≤ 255 := parseByte_le hb
        have hvc : c ≤ 255 := parseByte_le hc
        have hvd : d ≤ 255 := parseByte_le hd
        have hval : ((a * 256 + b) * 256 + c) * 256 + d < 2 ^ 32 := by
          have h32 : (2 : ℕ) ^ 32 = 4294967296 := by norm_num
          omega
        have hBpos : 0 < 2 ^ (32 - pp) := Nat.two_pow_pos _
        rw [maskOf, land_mask _ (32 - pp) (by omega) hval] at hnet
        refine ⟨hp32, (((a * 256 + b) * 256 + c) * 256 + d) / 2 ^ (32 - pp),
          ?_, hnet.symm⟩
        rw [Nat.div_lt_iff_lt_mul hBpos]
        calc ((a * 256 + b) * 256 + c) * 256 + d < 2 ^ 32 := hval
        _ = 2 ^ pp * 2 ^ (32 - pp) := by
              rw [← pow_add]
              congr 1
              omega
      case _ hne => exact Option.noConfusion h
    case _ hne => exact Option.noConfusion h
  case _ hne => exact Option.noConfusion h

/-! ## Claim theorems -/

/-- C9: for every 4-octet IPv4 address input, `incIP` returns a non-nil
4-octet address whose 32-bit value is the input's value plus one modulo
`2^32`; in particular `incIP 255.255.255.255 = 0.0.0.0` rather than nil, so
the nil-check break in `scanNetwork`'s enumeration loop is unreachable for
IPv4 inputs. -/
theorem C9_incIP_succ_mod (ip : List Nat) (h : validIP ip) :
    ∃ out, incIP ip = some out ∧ validIP out ∧
      ipToNat out = (ipToNat ip + 1) % 2 ^ 32 := by
  obtain ⟨a, b, c, d, rfl, ha, hb, hc, hd⟩ := validIP_elim h
  exact ⟨incBytes [a, b, c, d], by simp [incIP],
    incBytes_valid a b c d ha hb hc hd, incBytes_toNat a b c d ha hb hc hd⟩

/-- Witness for C9 at the wrap-around point 255.255.255.255. -/
theorem C9_incIP_succ_mod_witness :
    (∃ out, incIP [255, 255, 255, 255] = some out ∧ validIP out ∧
      ipToNat out = (ipToNat [255, 255, 255, 255] + 1) % 2 ^ 32) ∧
    incIP [255, 255, 255, 255] = some [0, 0, 0, 0] :=
  ⟨C9_incIP_succ_mod [255, 255, 255, 255] ⟨rfl, by decide⟩, by decide⟩

/-- C1 (code bug): on the valid CIDR 0.0.0.0/0 the enumeration does not send
exactly `2^(32-0) = 2^32` addresses — within the first `2^32 + 1` iterations
the loop has already sent `2^32 + 1` addresses to the work queue and has not
exited, because `Contains` is always true on a /0 block and `incIP` wraps
255.255.255.255 to 0.0.0.0 instead of returning nil. -/
theorem C1_zero_prefix_overrun :
    parseCIDR "0.0.0.0/0" = some (0, 0) ∧
    (scanLoopFuel 0 0 (2 ^ 32 + 1) 0).1.length = 2 ^ 32 + 1 ∧
    (scanLoopFuel 0 0 (2 ^ 32 + 1) 0).2 = false := by
  refine ⟨by decide, ?_, ?_⟩
  · rw [scanLoopFuel_zero_cidr (2 ^ 32 + 1) 0 (by norm_num)]
    simp
  · rw [scanLoopFuel_zero_cidr (2 ^ 32 + 1) 0 (by norm_num)]

/-- C3 (code bug): on the valid CIDR 0.0.0.0/0 the enumeration loop of
`scanNetwork` never terminates: however much fuel the loop is given, it has
not exited. -/
theorem C3_zero_prefix_no_termination :
    parseCIDR "0.0.0.0/0" = some (0, 0) ∧
    ∀ fuel, (scanLoopFuel 0 0 fuel 0).2 = false := by
  refine ⟨by decide, fun fuel => ?_⟩
  rw [scanLoopFuel_zero_cidr fuel 0 (by norm_num)]

/-- C2 counterexample: on the valid CIDR 0.0.0.0/0 the claim's "no address
probed twice" fails — the address 0.0.0.0 is sent to the work queue (and
hence probed) twice within the first `2^32 + 1` iterations. -/
theorem C2_counterexample_duplicate_probe :
    parseCIDR "0.0.0.0/0" = some (0, 0) ∧
    (scanLoopFuel 0 0 (2 ^ 32 + 1) 0).1.count 0 = 2 := by
  refine ⟨by decide, ?_⟩
  rw [scanLoopFuel_zero_cidr (2 ^ 32 + 1) 0 (by norm_num)]
  simp only [Nat.zero_add]
  rw [List.count_eq_countP, List.countP_map, List.range_succ,
    List.countP_append]
  have hcong : ∀ x ∈ List.range (2 ^ 32),
      (((fun x => x == 0) ∘ fun k => k % 2 ^ 32) x ↔ ((x == 0) : Bool)) := by
    intro x hx
    simp only [Function.comp]
    rw [Nat.mod_eq_of_lt (List.mem_range.mp hx)]
  rw [List.countP_congr hcong, ← List.count_eq_countP,
    List.count_eq_one_of_mem (List.nodup_range _)
      (List.mem_range.mpr (by norm_num))]
  have h2 : List.countP ((fun x => x == 0) ∘ fun k => k % 2 ^ 32) [2 ^ 32]
      = 1 := by decide
  rw [h2]

/-- C2 amended: for every valid CIDR with prefix length `1 ≤ p ≤ 32` and
every worker count `W ≥ 1`, however the channel distributes the enqueued
addresses over the workers, the enumeration is duplicate-free, every
enumerated address is probed exactly once (the multiset of probe invocations
equals the enumeration), and the gathered positives are exactly the
probe-filtered enumeration (multiset, hence set, equality — no order
guarantee). -/
theorem C2_amended_exactly_once (q p W : Nat) (dispatch : Nat → Fin W)
    (probe : Nat → Bool) (hp1 : 1 ≤ p) (hp : p ≤ 32) (hq : q < 2 ^ p)
    (_hW : 1 ≤ W) :
    scanLoopFuel (q * 2 ^ (32 - p)) p (2 ^ 32) (q * 2 ^ (32 - p))
        = (specBlockAddrs q p, true) ∧
    (specBlockAddrs q p).Nodup ∧
    poolProbed W dispatch (specBlockAddrs q p)
        = (specBlockAddrs q p : Multiset Nat) ∧
    poolFound W dispatch probe (specBlockAddrs q p)
        = (((specBlockAddrs q p).filter probe : List Nat) : Multiset Nat) :=
  ⟨enum_complete q p hp1 hp hq, specBlockAddrs_nodup q p,
    pool_partition W dispatch _, pool_partition_filter W dispatch probe _⟩

/-- Witness for the amended C2 on the single-address block 0.0.0.5/32 with
two workers. -/
theorem C2_amended_exactly_once_witness :
    scanLoopFuel (5 * 2 ^ (32 - 32)) 32 (2 ^ 32) (5 * 2 ^ (32 - 32))
        = (specBlockAddrs 5 32, true) ∧
    (specBlockAddrs 5 32).Nodup ∧
    poolProbed 2 (fun _ => (0 : Fin 2)) (specBlockAddrs 5 32)
        = (specBlockAddrs 5 32 : Multiset Nat) ∧
    poolFound 2 (fun _ => (0 : Fin 2)) (fun a => a == 5) (specBlockAddrs 5 32)
        = (((specBlockAddrs 5 32).filter (fun a => a == 5) : List Nat) :
            Multiset Nat) :=
  C2_amended_exactly_once 5 32 2 (fun _ => (0 : Fin 2)) (fun a => a == 5)
    (by decide) (by decide) (by decide) (by decide)

/-- C4 counterexample: for level 29 and capacity 100 the device report prints
28%, while the integer floor of the exact rational 100·29/100 is 29 — the
float64 computation `(float64(29)/float64(100))*100` rounds to just below 29
and `int` truncates it. -/
theorem C4_counterexample_float_vs_floor :
    renderSupplyLine { Description := "X", Level := 29, MaxCapacity := 100 }
      = "    - X: 29 (28% of 100)" ∧
    specFloorPercent 29 100 = 29 ∧
    goFloatPercent 29 100 = 28 :=
  ⟨by decide, by decide, by decide⟩

/-- C4 amended: when capacity > 0 and level ≥ 0 the rendered percentage is
the truncation of the IEEE-754 binary64 evaluation of
`(level/capacity) * 100` — which agrees with the exact floor on the spec's
example 80/100 but not universally (29/100 prints 28) — and when
capacity ≤ 0 or level < 0 no percentage is rendered (the line carries the
bare level, with the supplies-only `(unknown)` marker exactly for level -3,
settled in C5). -/
theorem C4_amended_percentage (s : Supply) (t : Tray) :
    (0 < s.MaxCapacity → 0 ≤ s.Level →
      renderSupplyLine s
        = "    - " ++ (if s.Description = "" then "Unknown Supply" else s.Description)
          ++ ": " ++ intToString s.Level
          ++ " (" ++ intToString (goFloatPercent s.Level s.MaxCapacity)
          ++ "% of " ++ intToString s.MaxCapacity ++ ")") ∧
    (¬ (0 < s.MaxCapacity ∧ 0 ≤ s.Level) → s.Level ≠ -3 →
      renderSupplyLine s
        = "    - " ++ (if s.Description = "" then "Unknown Supply" else s.Description)
          ++ ": " ++ intToString s.Level) ∧
    (0 < t.MaxCapacity → 0 ≤ t.CurrentLevel →
      renderTrayLine t
        = "    - " ++ (if t.Name = "" then "Unknown Tray" else t.Name)
          ++ ": " ++ intToString t.CurrentLevel
          ++ " (" ++ intToString (goFloatPercent t.CurrentLevel t.MaxCapacity)
          ++ "% of " ++ intToString t.MaxCapacity ++ ")") ∧
    (¬ (0 < t.MaxCapacity ∧ 0 ≤ t.CurrentLevel) →
      renderTrayLine t
        = "    - " ++ (if t.Name = "" then "Unknown Tray" else t.Name)
          ++ ": " ++ intToString t.CurrentLevel) ∧
    goFloatPercent 80 100 = specFloorPercent 80 100 := by
  refine ⟨?_, ?_, ?_, ?_, by decide⟩
  · intro h1 h2
    simp only [renderSupplyLine]
    rw [if_pos ⟨h1, h2⟩]
  · intro hn h3
    simp only [renderSupplyLine]
    rw [if_neg hn, if_neg h3]
  · intro h1 h2
    simp only [renderTrayLine]
    rw [if_pos ⟨h1, h2⟩]
  · intro hn
    simp only [renderTrayLine]
    rw [if_neg hn]

/-- Witness for the amended C4: the percentage branch at 80/100 and the
no-percentage branch at an empty tray. -/
theorem C4_amended_percentage_witness :
    renderSupplyLine { Description := "X", Level := 80, MaxCapacity := 100 }
      = "    - " ++ (if ("X" : String) = "" then "Unknown Supply" else "X")
        ++ ": " ++ intToString 80 ++ " (" ++ intToString (goFloatPercent 80 100)
        ++ "% of " ++ intToString 100 ++ ")" ∧
    renderTrayLine { Name := "", CurrentLevel := -2, MaxCapacity := 0 }
      = "    - " ++ (if ("" : String) = "" then "Unknown Tray" else "")
        ++ ": " ++ intToString (-2) :=
  ⟨(C4_amended_percentage ⟨"X", 80, 100⟩ ⟨"T", 0, 0⟩).1 (by decide) (by decide),
   (C4_amended_percentage ⟨"X", 80, 100⟩ ⟨"", -2, 0⟩).2.2.2.1 (by decide)⟩

/-- C5 counterexample: the Supplies block renders the sentinel level -3 with
the `(unknown)` marker, but the Paper Trays block does not — the tray line
for level -3 carries no marker, so the trays block is not analogous in this
respect. -/
theorem C5_counterexample_tray_no_marker :
    renderSupplyLine { Description := "S", Level := -3, MaxCapacity := 100 }
      = "    - S: -3 (unknown)" ∧
    renderTrayLine { Name := "S", CurrentLevel := -3, MaxCapacity := 100 }
      = "    - S: -3" :=
  ⟨by decide, by decide⟩

/-- C5 amended: a supply with the sentinel level -3 is printed with the
`(unknown)` marker and no percentage; the Paper Trays block renders its
per-tray lines analogously except that it has no `(unknown)` branch — a tray
with level -3 is printed with the bare level, no marker and no percentage. -/
theorem C5_amended_unknown_marker (s : Supply) (t : Tray)
    (hs : s.Level = -3) (ht : t.CurrentLevel = -3) :
    renderSupplyLine s
      = "    - " ++ (if s.Description = "" then "Unknown Supply" else s.Description)
        ++ ": " ++ intToString s.Level ++ " (unknown)" ∧
    renderTrayLine t
      = "    - " ++ (if t.Name = "" then "Unknown Tray" else t.Name)
        ++ ": " ++ intToString t.CurrentLevel := by
  constructor
  · have hcond : ¬ (0 < s.MaxCapacity ∧ 0 ≤ s.Level) := by
      rintro ⟨h1, h2⟩
      omega
    simp only [renderSupplyLine]
    rw [if_neg hcond, if_pos hs]
  · have hcond : ¬ (0 < t.MaxCapacity ∧ 0 ≤ t.CurrentLevel) := by
      rintro ⟨h1, h2⟩
      omega
    simp only [renderTrayLine]
    rw [if_neg hcond]

/-- Witness for the amended C5. -/
theorem C5_amended_unknown_marker_witness :
    renderSupplyLine { Description := "", Level := -3, MaxCapacity := 100 }
      = "    - " ++ (if ("" : String) = "" then "Unknown Supply" else "")
        ++ ": " ++ intToString (-3) ++ " (unknown)" ∧
    renderTrayLine { Name := "T", CurrentLevel := -3, MaxCapacity := 50 }
      = "    - " ++ (if ("T" : String) = "" then "Unknown Tray" else "T")
        ++ ": " ++ intToString (-3) :=
  C5_amended_unknown_marker ⟨"", -3, 100⟩ ⟨"T", -3, 50⟩ rfl rfl

/-- C10: a supply with an empty description renders exactly as if its
description were "Unknown Supply", a tray with an empty name as
"Unknown Tray", and each table section emits exactly one line per
accumulated record (plus its header), so no entry's line is ever omitted for
a missing description or name. -/
theorem C10_placeholders (s : Supply) (t : Tray) (pdus qdus : List Pdu)
    (hs : s.Description = "") (ht : t.Name = "")
    (hsup : 0 < (pdus.foldl processSupplyPdu []).length)
    (htr : 0 < (qdus.foldl processTrayPdu []).length) :
    renderSupplyLine s
      = renderSupplyLine
          { Description := "Unknown Supply", Level := s.Level, MaxCapacity := s.MaxCapacity } ∧
    renderTrayLine t
      = renderTrayLine
          { Name := "Unknown Tray", CurrentLevel := t.CurrentLevel, MaxCapacity := t.MaxCapacity } ∧
    suppliesSection (Except.ok pdus)
      = "  Supplies:"
        :: (pdus.foldl processSupplyPdu []).map (fun e => renderSupplyLine e.2) ∧
    (suppliesSection (Except.ok pdus)).length
      = 1 + (pdus.foldl processSupplyPdu []).length ∧
    traysSection (Except.ok qdus)
      = "  Paper Trays:"
        :: (qdus.foldl processTrayPdu []).map (fun e => renderTrayLine e.2) ∧
    (traysSection (Except.ok qdus)).length
      = 1 + (qdus.foldl processTrayPdu []).length := by
  have hsec : suppliesSection (Except.ok pdus)
      = "  Supplies:"
        :: (pdus.foldl processSupplyPdu []).map (fun e => renderSupplyLine e.2) := by
    simp only [suppliesSection]
    rw [if_pos hsup]
  have htsec : traysSection (Except.ok qdus)
      = "  Paper Trays:"
        :: (qdus.foldl processTrayPdu []).map (fun e => renderTrayLine e.2) := by
    simp only [traysSection]
    rw [if_pos htr]
  refine ⟨?_, ?_, hsec, ?_, htsec, ?_⟩
  · simp [renderSupplyLine, hs]
  · simp [renderTrayLine, ht]
  · rw [hsec]
    simp [Nat.add_comm]
  · rw [htsec]
    simp [Nat.add_comm]

/-- Witness for C10 on one-record tables. -/
theorem C10_placeholders_witness :
    renderSupplyLine { Description := "", Level := 5, MaxCapacity := 10 }
      = renderSupplyLine
          { Description := "Unknown Supply", Level := 5, MaxCapacity := 10 } ∧
    renderTrayLine { Name := "", CurrentLevel := 3, MaxCapacity := 6 }
      = renderTrayLine
          { Name := "Unknown Tray", CurrentLevel := 3, MaxCapacity := 6 } ∧
    suppliesSection (Except.ok [⟨".1.3.6.1.2.1.43.11.1.1.6.1", .str "A"⟩])
      = "  Supplies:"
        :: ([⟨".1.3.6.1.2.1.43.11.1.1.6.1", SnmpValue.str "A"⟩].foldl
            processSupplyPdu []).map (fun e => renderSupplyLine e.2) ∧
    (suppliesSection (Except.ok [⟨".1.3.6.1.2.1.43.11.1.1.6.1", .str "A"⟩])).length
      = 1 + ([⟨".1.3.6.1.2.1.43.11.1.1.6.1", SnmpValue.str "A"⟩].foldl
          processSupplyPdu []).length ∧
    traysSection (Except.ok [⟨".1.3.6.1.2.1.43.8.2.1.2.1", .str "T"⟩])
      = "  Paper Trays:"
        :: ([⟨".1.3.6.1.2.1.43.8.2.1.2.1", SnmpValue.str "T"⟩].foldl
            processTrayPdu []).map (fun e => renderTrayLine e.2) ∧
    (traysSection (Except.ok [⟨".1.3.6.1.2.1.43.8.2.1.2.1", .str "T"⟩])).length
      = 1 + ([⟨".1.3.6.1.2.1.43.8.2.1.2.1", SnmpValue.str "T"⟩].foldl
          processTrayPdu []).length :=
  C10_placeholders ⟨"", 5, 10⟩ ⟨"", 3, 6⟩
    [⟨".1.3.6.1.2.1.43.11.1.1.6.1", .str "A"⟩]
    [⟨".1.3.6.1.2.1.43.8.2.1.2.1", .str "T"⟩]
    rfl rfl (by decide) (by decide)

lemma processTrayPdu_level (m : List (Int × Tray)) (v : Pdu) (i : Int)
    (hlen : ¬ (splitChar '.' v.name.data).length < 2)
    (h2 : ".1.3.6.1.2.1.43.8.2.1.2".data.isPrefixOf v.name.data = false)
    (h9 : ".1.3.6.1.2.1.43.8.2.1.9".data.isPrefixOf v.name.data = true)
    (hv : v.value = .int i) :
    getTray (processTrayPdu m v) (pduIndex v.name)
      = { getTray m (pduIndex v.name) with CurrentLevel := i } := by
  simp only [processTrayPdu]
  rw [if_neg hlen]
  simp only [h2, h9, Bool.false_eq_true, if_false, if_true, hv]
  exact getTray_setTray_same _ _ _

lemma processTrayPdu_capacity (m : List (Int × Tray)) (v : Pdu) (i : Int)
    (hlen : ¬ (splitChar '.' v.name.data).length < 2)
    (h2 : ".1.3.6.1.2.1.43.8.2.1.2".data.isPrefixOf v.name.data = false)
    (h9 : ".1.3.6.1.2.1.43.8.2.1.9".data.isPrefixOf v.name.data = false)
    (h8 : ".1.3.6.1.2.1.43.8.2.1.8".data.isPrefixOf v.name.data = true)
    (hv : v.value = .int i) :
    getTray (processTrayPdu m v) (pduIndex v.name)
      = { getTray m (pduIndex v.name) with MaxCapacity := i } := by
  simp only [processTrayPdu]
  rw [if_neg hlen]
  simp only [h2, h9, h8, Bool.false_eq_true, if_false, if_true, hv]
  exact getTray_setTray_same _ _ _

/-- C6: a failed supplies walk — and equally a successful supplies walk that
yields no records — produces exactly the explicit no-data note for the
supplies section only, while the same report still contains a populated Paper
Trays section whenever the trays walk succeeded with at least one real table
entry; and each device's report is a function of that device's own data
alone, so no device's outcome affects another's report. -/
theorem C6_graceful_degradation (ip e : String) (vars spdus pdus : List Pdu)
    (v : Pdu) (devs : List (String × DeviceData)) (i : Nat)
    (hmem : v ∈ pdus) (hlen : 2 ≤ (splitChar '.' v.name.data).length)
    (hempty : (spdus.foldl processSupplyPdu []).length = 0) :
    pollPrinter ip ⟨Except.ok (), Except.ok vars, Except.error e, Except.ok pdus⟩
      = (("🖨️ Printer Report for " ++ ip ++ ":")
          :: (vars.map renderVariable).flatten)
        ++ ["  Supplies: (No data available: " ++ e ++ ")"]
        ++ ("  Paper Trays:"
            :: (pdus.foldl processTrayPdu []).map (fun x => renderTrayLine x.2)) ∧
    pollPrinter ip ⟨Except.ok (), Except.ok vars, Except.ok spdus, Except.ok pdus⟩
      = (("🖨️ Printer Report for " ++ ip ++ ":")
          :: (vars.map renderVariable).flatten)
        ++ ["  Supplies: (No data available: <nil>)"]
        ++ ("  Paper Trays:"
            :: (pdus.foldl processTrayPdu []).map (fun x => renderTrayLine x.2)) ∧
    (runDetails devs)[i]? = (devs[i]?).map (fun x => pollPrinter x.1 x.2) := by
  have hne : pdus.foldl processTrayPdu [] ≠ [] :=
    foldl_processTray_ne_nil pdus v hmem hlen
  have hpos : 0 < (pdus.foldl processTrayPdu []).length :=
    List.length_pos.mpr hne
  refine ⟨?_, ?_, ?_⟩
  · simp only [pollPrinter, suppliesSection, traysSection]
    rw [if_pos hpos]
  · have hnot : ¬ 0 < (spdus.foldl processSupplyPdu []).length := by omega
    simp only [pollPrinter, suppliesSection, traysSection]
    rw [if_neg hnot, if_pos hpos]
  · simp only [runDetails, List.getElem?_map]

/-- Witness for C6: a device with a failed supplies walk, a device whose
supplies walk succeeded with no entries, a one-entry trays walk, and a
one-device report list. -/
theorem C6_graceful_degradation_witness :
    pollPrinter "1.2.3.4" ⟨Except.ok (), Except.ok [], Except.error "timeout",
        Except.ok [⟨".1.3.6.1.2.1.43.8.2.1.2.1", .str "Tray 1"⟩]⟩
      = (("🖨️ Printer Report for " ++ "1.2.3.4" ++ ":")
          :: (([] : List Pdu).map renderVariable).flatten)
        ++ ["  Supplies: (No data available: " ++ "timeout" ++ ")"]
        ++ ("  Paper Trays:"
            :: ([(⟨".1.3.6.1.2.1.43.8.2.1.2.1", SnmpValue.str "Tray 1"⟩ : Pdu)].foldl
                processTrayPdu []).map (fun x => renderTrayLine x.2)) ∧
    pollPrinter "1.2.3.4" ⟨Except.ok (), Except.ok [], Except.ok [],
        Except.ok [⟨".1.3.6.1.2.1.43.8.2.1.2.1", .str "Tray 1"⟩]⟩
      = (("🖨️ Printer Report for " ++ "1.2.3.4" ++ ":")
          :: (([] : List Pdu).map renderVariable).flatten)
        ++ ["  Supplies: (No data available: <nil>)"]
        ++ ("  Paper Trays:"
            :: ([(⟨".1.3.6.1.2.1.43.8.2.1.2.1", SnmpValue.str "Tray 1"⟩ : Pdu)].foldl
                processTrayPdu []).map (fun x => renderTrayLine x.2)) ∧
    (runDetails [("9.9.9.9",
        ⟨Except.error "down", Except.error "x", Except.error "y", Except.error "z"⟩)])[0]?
      = ([(("9.9.9.9",
          ⟨Except.error "down", Except.error "x", Except.error "y",
            Except.error "z"⟩) : String × DeviceData)][0]?).map
          (fun x => pollPrinter x.1 x.2) :=
  C6_graceful_degradation "1.2.3.4" "timeout" [] []
    [⟨".1.3.6.1.2.1.43.8.2.1.2.1", .str "Tray 1"⟩]
    ⟨".1.3.6.1.2.1.43.8.2.1.2.1", .str "Tray 1"⟩
    [("9.9.9.9", ⟨Except.error "down", Except.error "x", Except.error "y",
      Except.error "z"⟩)] 0
    (List.mem_singleton.mpr rfl) (by decide) rfl

/-- Shape of the driver after a successful parse. -/
lemma runMain_eq_of_parse (cidr : String) (probe : Nat → Bool)
    (detail : Nat → DeviceData) (net p : Nat)
    (h : parseCIDR cidr = some (net, p)) :
    runMain cidr probe detail
      = (if (scanLoopFuel net p (2 ^ 32) net).2 then
          some (.success (((scanLoopFuel net p (2 ^ 32) net).1.filter probe).map
            (fun a => pollPrinter (ipToString a) (detail a))))
        else none) := by
  unfold runMain
  rw [h]

/-- C7 counterexample: with the valid CIDR 0.0.0.0/0 and no per-device
failure at all (every probe negative, every device healthy), the process
still does not complete the scan — the enumeration loop never exits (C3), so
the driver reaches no exit at all, contradicting "the process still completes
the scan and exits with status 0". -/
theorem C7_counterexample_scan_never_completes :
    runMain "0.0.0.0/0" (fun _ => false)
      (fun _ => ⟨Except.ok (), Except.ok [], Except.ok [], Except.ok []⟩)
      = none := by
  rw [runMain_eq_of_parse _ _ _ 0 0 (by decide),
    scanLoopFuel_zero_cidr (2 ^ 32) 0 (by norm_num)]
  rfl

/-- C7 amended: a malformed CIDR yields the fatal outcome (non-zero exit)
with no probe attempted — the outcome does not depend on the probe or detail
behaviour at all — while for every valid CIDR with prefix length `p ≥ 1`,
any probe behaviour and any per-device outcomes (including connect, Get and
walk failures), the run completes with the success outcome (exit status
0). -/
theorem C7_amended_fatal_boundary (cidr : String) (probe probe' : Nat → Bool)
    (detail detail' : Nat → DeviceData) (net p : Nat) :
    (parseCIDR cidr = none →
      runMain cidr probe detail = some (.fatal "Invalid CIDR") ∧
      runMain cidr probe detail = runMain cidr probe' detail') ∧
    (parseCIDR cidr = some (net, p) → 1 ≤ p →
      ∃ reports, runMain cidr probe detail = some (.success reports)) := by
  constructor
  · intro hnone
    unfold runMain
    rw [hnone]
    exact ⟨rfl, rfl⟩
  · intro hsome hp1
    obtain ⟨hp32, q, hq, hnet⟩ := parseCIDR_sound hsome
    subst hnet
    refine ⟨((specBlockAddrs q p).filter probe).map
      (fun a => pollPrinter (ipToString a) (detail a)), ?_⟩
    rw [runMain_eq_of_parse cidr probe detail _ p hsome,
      enum_complete q p hp1 hp32 hq]
    rfl

/-- Witness for the amended C7: the malformed input "not-a-cidr" and the
valid block 10.0.0.0/30 whose every device fails. -/
theorem C7_amended_fatal_boundary_witness :
    (runMain "not-a-cidr" (fun _ => true)
        (fun _ => ⟨Except.ok (), Except.ok [], Except.ok [], Except.ok []⟩)
      = some (.fatal "Invalid CIDR") ∧
     runMain "not-a-cidr" (fun _ => true)
        (fun _ => ⟨Except.ok (), Except.ok [], Except.ok [], Except.ok []⟩)
      = runMain "not-a-cidr" (fun _ => false)
        (fun _ => ⟨Except.error "down", Except.error "x", Except.error "y",
          Except.error "z"⟩)) ∧
    ∃ reports, runMain "10.0.0.0/30" (fun _ => true)
        (fun _ => ⟨Except.error "down", Except.error "x", Except.error "y",
          Except.error "z"⟩)
      = some (.success reports) :=
  ⟨(C7_amended_fatal_boundary "not-a-cidr" (fun _ => true) (fun _ => false)
      (fun _ => ⟨Except.ok (), Except.ok [], Except.ok [], Except.ok []⟩)
      (fun _ => ⟨Except.error "down", Except.error "x", Except.error "y",
        Except.error "z"⟩) 0 0).1 (by decide),
   (C7_amended_fatal_boundary "10.0.0.0/30" (fun _ => true) (fun _ => true)
      (fun _ => ⟨Except.error "down", Except.error "x", Except.error "y",
        Except.error "z"⟩)
      (fun _ => ⟨Except.error "down", Except.error "x", Except.error "y",
        Except.error "z"⟩) 167772160 30).2 (by decide) (by decide)⟩

/-- C8 counterexample: the walk entry .1.3.6.1.2.1.43.11.1.1.66.5 lies in
column 66 — not one of the recognized columns 6, 9, 8 — yet the code's
string-prefix dispatch matches it against the description root
.1.3.6.1.2.1.43.11.1.1.6 and populates the description of record 5, so "an
entry whose column is not one of the three recognized columns populates no
field" fails. -/
theorem C8_counterexample_prefix_collision :
    (splitChar '.' ".1.3.6.1.2.1.43.11.1.1.66.5".data).getLastD [] = ['5'] ∧
    (splitChar '.' ".1.3.6.1.2.1.43.11.1.1.66.5".data).dropLast.getLastD []
      = ['6', '6'] ∧
    pduIndex ".1.3.6.1.2.1.43.11.1.1.66.5" = 5 ∧
    (getSupply (processSupplyPdu []
        ⟨".1.3.6.1.2.1.43.11.1.1.66.5", .str "Cyan Toner"⟩) 5).Description
      = "Cyan Toner" :=
  ⟨by decide, by decide, by decide, by decide⟩

/-- C8 amended: every walk entry with at least two dot-components contributes
to the record keyed by `Atoi` of its last component (0 when non-numeric) and
touches no other record; the field it populates is chosen by string-prefix
matching of the whole identifier against the three column roots, tested in
source order, so a column whose decimal digits extend a recognized column
number is treated as that column; an identifier matching no root populates no
field (though the record is still materialized); entries with fewer than two
components are skipped. -/
theorem C8_amended_prefix_dispatch (m : List (Int × Supply))
    (mt : List (Int × Tray)) (v : Pdu) (k : Int) (s : String) (i : Int) :
    ((splitChar '.' v.name.data).length < 2 →
      processSupplyPdu m v = m ∧ processTrayPdu mt v = mt) ∧
    (k ≠ pduIndex v.name →
      getSupply (processSupplyPdu m v) k = getSupply m k ∧
      getTray (processTrayPdu mt v) k = getTray mt k) ∧
    (¬ (splitChar '.' v.name.data).length < 2 →
      ".1.3.6.1.2.1.43.11.1.1.6".data.isPrefixOf v.name.data = false →
      ".1.3.6.1.2.1.43.11.1.1.9".data.isPrefixOf v.name.data = false →
      ".1.3.6.1.2.1.43.11.1.1.8".data.isPrefixOf v.name.data = false →
      getSupply (processSupplyPdu m v) (pduIndex v.name)
        = getSupply m (pduIndex v.name)) ∧
    (¬ (splitChar '.' v.name.data).length < 2 →
      ".1.3.6.1.2.1.43.8.2.1.2".data.isPrefixOf v.name.data = false →
      ".1.3.6.1.2.1.43.8.2.1.9".data.isPrefixOf v.name.data = false →
      ".1.3.6.1.2.1.43.8.2.1.8".data.isPrefixOf v.name.data = false →
      getTray (processTrayPdu mt v) (pduIndex v.name)
        = getTray mt (pduIndex v.name)) ∧
    (¬ (splitChar '.' v.name.data).length < 2 →
      ".1.3.6.1.2.1.43.11.1.1.6".data.isPrefixOf v.name.data = true →
      v.value = .str s →
      getSupply (processSupplyPdu m v) (pduIndex v.name)
        = { getSupply m (pduIndex v.name) with Description := s }) ∧
    (¬ (splitChar '.' v.name.data).length < 2 →
      ".1.3.6.1.2.1.43.11.1.1.6".data.isPrefixOf v.name.data = false →
      ".1.3.6.1.2.1.43.11.1.1.9".data.isPrefixOf v.name.data = true →
      v.value = .int i →
      getSupply (processSupplyPdu m v) (pduIndex v.name)
        = { getSupply m (pduIndex v.name) with Level := i }) ∧
    (¬ (splitChar '.' v.name.data).length < 2 →
      ".1.3.6.1.2.1.43.11.1.1.6".data.isPrefixOf v.name.data = false →
      ".1.3.6.1.2.1.43.11.1.1.9".data.isPrefixOf v.name.data = false →
      ".1.3.6.1.2.1.43.11.1.1.8".data.isPrefixOf v.name.data = true →
      v.value = .int i →
      getSupply (processSupplyPdu m v) (pduIndex v.name)
        = { getSupply m (pduIndex v.name) with MaxCapacity := i }) ∧
    (¬ (splitChar '.' v.name.data).length < 2 →
      ".1.3.6.1.2.1.43.8.2.1.2".data.isPrefixOf v.name.data = true →
      v.value = .str s →
      getTray (processTrayPdu mt v) (pduIndex v.name)
        = { getTray mt (pduIndex v.name) with Name := s }) ∧
    (¬ (splitChar '.' v.name.data).length < 2 →
      ".1.3.6.1.2.1.43.8.2.1.2".data.isPrefixOf v.name.data = false →
      ".1.3.6.1.2.1.43.8.2.1.9".data.isPrefixOf v.name.data = true →
      v.value = .int i →
      getTray (processTrayPdu mt v) (pduIndex v.name)
        = { getTray mt (pduIndex v.name) with CurrentLevel := i }) ∧
    (¬ (splitChar '.' v.name.data).length < 2 →
      ".1.3.6.1.2.1.43.8.2.1.2".data.isPrefixOf v.name.data = false →
      ".1.3.6.1.2.1.43.8.2.1.9".data.isPrefixOf v.name.data = false →
      ".1.3.6.1.2.1.43.8.2.1.8".data.isPrefixOf v.name.data = true →
      v.value = .int i →
      getTray (processTrayPdu mt v) (pduIndex v.name)
        = { getTray mt (pduIndex v.name) with MaxCapacity := i }) :=
  ⟨fun h => ⟨processSupplyPdu_skip m v h, processTrayPdu_skip mt v h⟩,
   fun hk => ⟨processSupplyPdu_other_key m v k hk,
     processTrayPdu_other_key mt v k hk⟩,
   fun hl h6 h9 h8 => processSupplyPdu_unrecognized m v hl h6 h9 h8,
   fun hl h2 h9 h8 => processTrayPdu_unrecognized mt v hl h2 h9 h8,
   fun hl h6 hv => processSupplyPdu_desc m v s hl h6 hv,
   fun hl h6 h9 hv => processSupplyPdu_level m v i hl h6 h9 hv,
   fun hl h6 h9 h8 hv => processSupplyPdu_capacity m v i hl h6 h9 h8 hv,
   fun hl h2 hv => processTrayPdu_name mt v s hl h2 hv,
   fun hl h2 h9 hv => processTrayPdu_level mt v i hl h2 h9 hv,
   fun hl h2 h9 h8 hv => processTrayPdu_capacity mt v i hl h2 h9 h8 hv⟩

/-- Witness for the amended C8, one concrete entry per dispatch case. -/
theorem C8_amended_prefix_dispatch_witness :
    (processSupplyPdu [] ⟨"x", .other⟩ = [] ∧
      processTrayPdu [] ⟨"x", .other⟩ = []) ∧
    (getSupply (processSupplyPdu [] ⟨".1.3.6.1.2.1.43.11.1.1.9.2", .int 7⟩) 3
        = getSupply [] 3 ∧
      getTray (processTrayPdu [] ⟨".1.3.6.1.2.1.43.11.1.1.9.2", .int 7⟩) 3
        = getTray [] 3) ∧
    getSupply (processSupplyPdu [] ⟨".1.3.6.1.2.1.43.11.1.1.7.2", .int 7⟩)
        (pduIndex ".1.3.6.1.2.1.43.11.1.1.7.2")
      = getSupply [] (pduIndex ".1.3.6.1.2.1.43.11.1.1.7.2") ∧
    getTray (processTrayPdu [] ⟨".1.3.6.1.2.1.43.8.2.1.3.2", .int 7⟩)
        (pduIndex ".1.3.6.1.2.1.43.8.2.1.3.2")
      = getTray [] (pduIndex ".1.3.6.1.2.1.43.8.2.1.3.2") ∧
    getSupply (processSupplyPdu [] ⟨".1.3.6.1.2.1.43.11.1.1.6.1", .str "A"⟩)
        (pduIndex ".1.3.6.1.2.1.43.11.1.1.6.1")
      = { getSupply [] (pduIndex ".1.3.6.1.2.1.43.11.1.1.6.1") with
          Description := "A" } ∧
    getSupply (processSupplyPdu [] ⟨".1.3.6.1.2.1.43.11.1.1.9.1", .int 42⟩)
        (pduIndex ".1.3.6.1.2.1.43.11.1.1.9.1")
      = { getSupply [] (pduIndex ".1.3.6.1.2.1.43.11.1.1.9.1") with
          Level := 42 } ∧
    getSupply (processSupplyPdu [] ⟨".1.3.6.1.2.1.43.11.1.1.8.1", .int 42⟩)
        (pduIndex ".1.3.6.1.2.1.43.11.1.1.8.1")
      = { getSupply [] (pduIndex ".1.3.6.1.2.1.43.11.1.1.8.1") with
          MaxCapacity := 42 } ∧
    getTray (processTrayPdu [] ⟨".1.3.6.1.2.1.43.8.2.1.2.1", .str "A"⟩)
        (pduIndex ".1.3.6.1.2.1.43.8.2.1.2.1")
      = { getTray [] (pduIndex ".1.3.6.1.2.1.43.8.2.1.2.1") with
          Name := "A" } ∧
    getTray (processTrayPdu [] ⟨".1.3.6.1.2.1.43.8.2.1.9.1", .int 42⟩)
        (pduIndex ".1.3.6.1.2.1.43.8.2.1.9.1")
      = { getTray [] (pduIndex ".1.3.6.1.2.1.43.8.2.1.9.1") with
          CurrentLevel := 42 } ∧
    getTray (processTrayPdu [] ⟨".1.3.6.1.2.1.43.8.2.1.8.1", .int 42⟩)
        (pduIndex ".1.3.6.1.2.1.43.8.2.1.8.1")
      = { getTray [] (pduIndex ".1.3.6.1.2.1.43.8.2.1.8.1") with
          MaxCapacity := 42 } :=
  ⟨(C8_amended_prefix_dispatch [] [] ⟨"x", .other⟩ 3 "A" 42).1 (by decide),
   (C8_amended_prefix_dispatch [] [] ⟨".1.3.6.1.2.1.43.11.1.1.9.2", .int 7⟩
      3 "A" 42).2.1 (by decide),
   (C8_amended_prefix_dispatch [] [] ⟨".1.3.6.1.2.1.43.11.1.1.7.2", .int 7⟩
      3 "A" 42).2.2.1 (by decide) (by decide) (by decide) (by decide),
   (C8_amended_prefix_dispatch [] [] ⟨".1.3.6.1.2.1.43.8.2.1.3.2", .int 7⟩
      3 "A" 42).2.2.2.1 (by decide) (by decide) (by decide) (by decide),
   (C8_amended_prefix_dispatch [] [] ⟨".1.3.6.1.2.1.43.11.1.1.6.1", .str "A"⟩
      3 "A" 42).2.2.2.2.1 (by decide) (by decide) rfl,
   (C8_amended_prefix_dispatch [] [] ⟨".1.3.6.1.2.1.43.11.1.1.9.1", .int 42⟩
      3 "A" 42).2.2.2.2.2.1 (by decide) (by decide) (by decide) rfl,
   (C8_amended_prefix_dispatch [] [] ⟨".1.3.6.1.2.1.43.11.1.1.8.1", .int 42⟩
      3 "A" 42).2.2.2.2.2.2.1 (by decide) (by decide) (by decide) (by decide)
      rfl,
   (C8_amended_prefix_dispatch [] [] ⟨".1.3.6.1.2.1.43.8.2.1.2.1", .str "A"⟩
      3 "A" 42).2.2.2.2.2.2.2.1 (by decide) (by decide) rfl,
   (C8_amended_prefix_dispatch [] [] ⟨".1.3.6.1.2.1.43.8.2.1.9.1", .int 42⟩
      3 "A" 42).2.2.2.2.2.2.2.2.1 (by decide) (by decide) (by decide) rfl,
   (C8_amended_prefix_dispatch [] [] ⟨".1.3.6.1.2.1.43.8.2.1.8.1", .int 42⟩
      3 "A" 42).2.2.2.2.2.2.2.2.2 (by decide) (by decide) (by decide)
      (by decide) rfl⟩

end SnmpPrinter
